import Mathlib

/-!
Verification of the feedback aggregation and anonymity engine of the
Catalyst-360 repository (src/database.py `get_leader_feedback_data`,
src/report_generator.py `categorize_papu_nanu`, src/framework.py constants).

The Python code is shallowly embedded: relationship categories become an
enumerated type, the raters/ratings tables become a completed-rater count
function and a list of rating rows, dictionaries with possibly-absent keys
become `Option`-valued functions or association lists, and Python floats
become exact rationals.  Python `round(x, n)` is modelled as rounding the
exact rational to `n` decimal places (half away from zero upward); the claims
under study never depend on tie-breaking behaviour.
-/

/-- Relationship categories, the implicit fixed list
`['Self','Boss','Peers','DRs','Others']` of the source. -/
inductive Category
  | Self
  | Boss
  | Peers
  | DRs
  | Others
deriving DecidableEq

/-- All five categories, in the source's canonical order. -/
def allCategories : List Category :=
  [Category.Self, Category.Boss, Category.Peers, Category.DRs, Category.Others]

/-- framework.py: `ANONYMITY_THRESHOLD = 3`. -/
def ANONYMITY_THRESHOLD : ℕ := 3

/-- framework.py: `HIGH_SCORE_THRESHOLD = 4.0`. -/
def HIGH_SCORE_THRESHOLD : ℚ := 4

/-- framework.py: `SIGNIFICANT_GAP = 0.5`. -/
def SIGNIFICANT_GAP : ℚ := 1/2

/-- report_generator.py: `OVERALL_ITEMS = [46, 47]`. -/
def OVERALL_ITEMS : List ℕ := [46, 47]

/-- framework.py: `DIMENSIONS`, each dimension with its inclusive item range. -/
def DIMENSIONS : List (String × ℕ × ℕ) :=
  [("Leading Self", 1, 5),
   ("Developing Others", 6, 10),
   ("Building High-Performing Teams", 11, 15),
   ("Driving Results", 16, 20),
   ("Leading Change", 21, 25),
   ("Communicating & Influencing", 26, 30),
   ("Building Trust", 31, 35),
   ("Thinking Strategically", 36, 40),
   ("Performance Excellence", 41, 45)]

/-- framework.py: the `ITEMS` dictionary, as the total function
`ITEMS.get(item_num, '')` used by the aggregation code. -/
def itemText (n : ℕ) : String :=
  match n with
  | 1 => "Maintains a healthy balance between strategic leadership and day-to-day management"
  | 2 => "Manages their time effectively, focusing on high-value activities rather than firefighting"
  | 3 => "Delegates appropriately rather than taking on too much themselves"
  | 4 => "Stays calm and composed under pressure"
  | 5 => "Is open to feedback on their own leadership and actively works to improve"
  | 6 => "Invests time in developing their team members as individuals"
  | 7 => "Has meaningful development conversations, not just operational catch-ups"
  | 8 => "Creates an environment where people are encouraged to learn and grow"
  | 9 => "Helps their people think through problems rather than simply providing answers"
  | 10 => "Builds the capability of their team to operate more independently over time"
  | 11 => "Builds teams that work well together and support each other"
  | 12 => "Addresses dysfunctional team dynamics rather than ignoring them"
  | 13 => "Brings positive energy to their team, even in challenging times"
  | 14 => "Adapts their leadership style to what different team members need"
  | 15 => "Challenges people to perform while genuinely caring about them as individuals"
  | 16 => "Sets clear expectations so people know what success looks like"
  | 17 => "Holds people accountable for their commitments in a fair and consistent way"
  | 18 => "Makes timely decisions rather than delaying unnecessarily"
  | 19 => "Follows through on agreed actions and expects the same from others"
  | 20 => "Maintains focus on priorities rather than being distracted by less important issues"
  | 21 => "Helps their team understand the reasons behind changes"
  | 22 => "Supports their people through uncertainty rather than leaving them to cope alone"
  | 23 => "Encourages new ideas and ways of working"
  | 24 => "Adapts their approach when circumstances change rather than sticking rigidly to plans"
  | 25 => "Builds commitment to change rather than just compliance"
  | 26 => "Listens well and considers different perspectives before reaching conclusions"
  | 27 => "Communicates clearly so people understand what\x27s expected"
  | 28 => "Keeps people appropriately informed rather than leaving them guessing"
  | 29 => "Adapts their communication style to different audiences"
  | 30 => "Is able to influence others without relying on positional authority"
  | 31 => "Does what they say they will do"
  | 32 => "Is honest even when the message is difficult"
  | 33 => "Shares information openly rather than keeping people in the dark"
  | 34 => "Acknowledges and celebrates good work"
  | 35 => "Creates an environment where people feel safe to speak up"
  | 36 => "Thinks beyond their immediate area to consider wider organisational impact"
  | 37 => "Balances short-term pressures with longer-term priorities"
  | 38 => "Builds effective relationships with key stakeholders across the business"
  | 39 => "Involves their team in shaping direction rather than dictating it"
  | 40 => "Identifies and manages risks before they become problems"
  | 41 => "Uses the Performance Excellence framework to prioritise opportunities based on data rather than instinct"
  | 42 => "Clearly defines problem statements before jumping into solutions"
  | 43 => "Breaks larger issues into structured, manageable stages to ensure problems are solved at the right level"
  | 44 => "Engages the right people at each stage of the funnel to validate assumptions and strengthen solutions"
  | 45 => "Follows through on improvement actions and tracks impact to ensure benefits are realised and sustained"
  | 46 => "Overall, is an effective leader"
  | 47 => "I would want to work with this person again"
  | _ => ""

/-- Rounding of an exact rational, modelling Python `round(x)` to an integer. -/
def roundInt (q : ℚ) : ℤ := round q

/-- Python `round(x, 1)`. -/
def round1 (q : ℚ) : ℚ := ((roundInt (10 * q) : ℤ) : ℚ) / 10

/-- Python `round(x, 2)`. -/
def round2 (q : ℚ) : ℚ := ((roundInt (100 * q) : ℤ) : ℚ) / 100

/-- Mean of a list of integer scores, as `sum(scores) / len(scores)`. -/
def intMean (l : List ℤ) : ℚ := (l.map (fun n => (n : ℚ))).sum / (l.length : ℚ)

/-- Mean of a list of rational scores, as `sum(scores) / len(scores)`. -/
def qMean (l : List ℚ) : ℚ := l.sum / (l.length : ℚ)

/-!
Anonymity grouping (database.py, `get_leader_feedback_data`, the block
computing `visible_groups`, `hidden_groups` and `response_counts` from the
completed-rater counts per relationship).  A leader's completed-rater counts
are a function `raw : Category → ℕ`; the SQL `GROUP BY relationship` result
dictionary is recovered as `rawCountsList` (only categories with at least one
completed rater have a row).
-/

/-- Loop body of `for group in ['Peers', 'DRs', 'Others']`: a group with
count ≥ threshold joins the visible list, a group with a nonzero count below
the threshold joins the hidden list, a zero-count group joins neither. -/
def groupStep (raw : Category → ℕ) (vh : List Category × List Category)
    (g : Category) : List Category × List Category :=
  if ANONYMITY_THRESHOLD ≤ raw g then (vh.1 ++ [g], vh.2)
  else if 0 < raw g then (vh.1, vh.2 ++ [g])
  else vh

/-- The pair `(visible_groups, hidden_groups)`; `visible_groups` is seeded
with `['Self', 'Boss']`. -/
def foldGroups (raw : Category → ℕ) : List Category × List Category :=
  [Category.Peers, Category.DRs, Category.Others].foldl (groupStep raw)
    ([Category.Self, Category.Boss], [])

/-- Loop body of `for group in ['Self', 'Boss', 'Peers', 'DRs']`: visible
groups get their own `response_counts` entry, hidden groups have their raw
count added into the running Others total, and groups in neither list are
skipped. -/
def countStep (raw : Category → ℕ) (vis hid : List Category)
    (acc : List (Category × ℕ) × ℕ) (g : Category) : List (Category × ℕ) × ℕ :=
  if g ∈ vis then (acc.1 ++ [(g, raw g)], acc.2)
  else if g ∈ hid then (acc.1, acc.2 + raw g)
  else acc

/-- Result of the `response_counts` loop: the entries for Self/Boss/Peers/DRs
together with the accumulated `others_count`, whose starting value is the raw
Others count. -/
def countsPair (raw : Category → ℕ) : List (Category × ℕ) × ℕ :=
  [Category.Self, Category.Boss, Category.Peers, Category.DRs].foldl
    (countStep raw (foldGroups raw).1 (foldGroups raw).2)
    ([], raw Category.Others)

/-- The final `others_count` value. -/
def othersCount (raw : Category → ℕ) : ℕ := (countsPair raw).2

/-- The `response_counts` dictionary as an association list: the Others entry
is appended exactly when `others_count > 0 or 'Others' in visible_groups`. -/
def mkResponseCounts (raw : Category → ℕ) : List (Category × ℕ) :=
  if 0 < othersCount raw ∨ Category.Others ∈ (foldGroups raw).1 then
    (countsPair raw).1 ++ [(Category.Others, othersCount raw)]
  else (countsPair raw).1

/-- The `raw_response_counts` dictionary: one entry per category with at
least one completed rater (the SQL `GROUP BY` emits no zero-count rows). -/
def rawCountsList (raw : Category → ℕ) : List (Category × ℕ) :=
  allCategories.foldl (fun acc g => if 0 < raw g then acc ++ [(g, raw g)] else acc) []

/-- The `map_group` closure: hidden groups are renamed to Others, all other
groups keep their own name. -/
def map_group (hid : List Category) (g : Category) : Category :=
  if g ∈ hid then Category.Others else g

/-!
Score aggregation (database.py, `get_leader_feedback_data`, the blocks
building `item_scores`, `item_no_opp`, the per-item averages, `Combined`,
`Gap`, `by_dimension` and `overall`).  A rating row is one row of the
ratings/raters join: item number, rater relationship, stored score (NULL for
no-opportunity and not-applicable rows) and the no-opportunity flag.
-/

/-- One row of the ratings query for a leader's completed raters. -/
structure RatingRow where
  item_number : ℕ
  relationship : Category
  score : Option ℤ
  no_opportunity : Bool
deriving DecidableEq

/-- Per-row contribution to `item_scores[item][g]`: a row counts when its
item matches and its mapped group is `g`; a no-opportunity row contributes no
score, otherwise a non-NULL score is appended. -/
def scoreStep (hid : List Category) (item : ℕ) (g : Category)
    (acc : List ℤ) (r : RatingRow) : List ℤ :=
  if r.item_number = item ∧ map_group hid r.relationship = g then
    if r.no_opportunity then acc else acc ++ r.score.toList
  else acc

/-- The collected numeric scores `item_scores[item][g]`. -/
def itemScores (rows : List RatingRow) (hid : List Category)
    (item : ℕ) (g : Category) : List ℤ :=
  rows.foldl (scoreStep hid item g) []

/-- Per-row contribution to `item_no_opp[item][g]`. -/
def noOppStep (hid : List Category) (item : ℕ) (g : Category)
    (n : ℕ) (r : RatingRow) : ℕ :=
  if r.item_number = item ∧ map_group hid r.relationship = g then
    if r.no_opportunity then n + 1 else n
  else n

/-- The no-opportunity count `item_no_opp[item][g]`. -/
def itemNoOpp (rows : List RatingRow) (hid : List Category)
    (item : ℕ) (g : Category) : ℕ :=
  rows.foldl (noOppStep hid item g) 0

/-- The per-item per-group average `by_item[item][g]`: the mean of the
collected scores rounded to one decimal place, and no entry at all when no
numeric score was collected. -/
def groupScore (rows : List RatingRow) (hid : List Category)
    (item : ℕ) (g : Category) : Option ℚ :=
  if itemScores rows hid item g = [] then none
  else some (round1 (intMean (itemScores rows hid item g)))

/-- The total no-opportunity count for an item (`no_opportunity[item]['count']`). -/
def noOppCount (rows : List RatingRow) (hid : List Category) (item : ℕ) : ℕ :=
  allCategories.foldl (fun n g => n + itemNoOpp rows hid item g) 0

/-- The `no_opportunity[item]['groups']` list: each mapped group repeated
once per no-opportunity response it produced on this item. -/
def noOppGroups (rows : List RatingRow) (hid : List Category) (item : ℕ) : List Category :=
  allCategories.foldl (fun acc g => acc ++ List.replicate (itemNoOpp rows hid item g) g) []

/-- Loop body of `for g in ['Boss', 'Peers', 'DRs', 'Others']` in the
Combined computation: a group's per-item score joins `other_scores` when the
group is visible or is the Others bucket itself, and is present. -/
def combStep (rows : List RatingRow) (vis hid : List Category) (item : ℕ)
    (acc : List ℚ) (g : Category) : List ℚ :=
  if g ∈ vis ∨ g = Category.Others then acc ++ (groupScore rows hid item g).toList
  else acc

/-- The `other_scores` list feeding the Combined score of an item. -/
def otherScoresList (rows : List RatingRow) (raw : Category → ℕ) (item : ℕ) : List ℚ :=
  [Category.Boss, Category.Peers, Category.DRs, Category.Others].foldl
    (combStep rows (foldGroups raw).1 (foldGroups raw).2 item) []

/-- The Combined score `by_item[item]['Combined']`: mean of `other_scores`
rounded to two decimals, absent when `other_scores` is empty. -/
def combinedScore (rows : List RatingRow) (raw : Category → ℕ) (item : ℕ) : Option ℚ :=
  if otherScoresList rows raw item = [] then none
  else some (round2 (qMean (otherScoresList rows raw item)))

/-- The Self score of an item (group scores are keyed by mapped group, and
Self is never hidden, so this is `by_item[item].get('Self')`). -/
def selfScoreOf (rows : List RatingRow) (raw : Category → ℕ) (item : ℕ) : Option ℚ :=
  groupScore rows (foldGroups raw).2 item Category.Self

/-- The Gap `by_item[item]['Gap']`: set only inside the branch where Combined
was just set, and only when a Self score is present. -/
def gapScore (rows : List RatingRow) (raw : Category → ℕ) (item : ℕ) : Option ℚ :=
  match combinedScore rows raw item with
  | none => none
  | some c =>
    match selfScoreOf rows raw item with
    | none => none
    | some s => some (round2 (s - c))

/-- One entry of the `by_item` dictionary. -/
structure ItemEntry where
  text : String
  score : Category → Option ℚ
  Combined : Option ℚ
  Gap : Option ℚ

/-- The `by_item` dictionary: an entry for every item number 1..47 (created
unconditionally, carrying the framework text), and no other keys. -/
def by_item (rows : List RatingRow) (raw : Category → ℕ) (item : ℕ) : Option ItemEntry :=
  if 1 ≤ item ∧ item ≤ 47 then
    some { text := itemText item
         , score := fun g => groupScore rows (foldGroups raw).2 item g
         , Combined := combinedScore rows raw item
         , Gap := gapScore rows raw item }
  else none

/-- The `overall` dictionary: exactly the `by_item` entries of items 46 and 47. -/
def overall (rows : List RatingRow) (raw : Category → ℕ) (item : ℕ) : Option ItemEntry :=
  if item = 46 ∨ item = 47 then by_item rows raw item else none

/-- The per-dimension collected values `dim_scores[g]` for a category key:
the present per-item scores of the dimension's item range. -/
def dimCatValues (rows : List RatingRow) (raw : Category → ℕ)
    (s e : ℕ) (g : Category) : List ℚ :=
  (List.range' s (e + 1 - s)).foldl
    (fun acc i => acc ++ (groupScore rows (foldGroups raw).2 i g).toList) []

/-- The per-dimension collected values `dim_scores['Combined']`. -/
def dimCombValues (rows : List RatingRow) (raw : Category → ℕ) (s e : ℕ) : List ℚ :=
  (List.range' s (e + 1 - s)).foldl
    (fun acc i => acc ++ (combinedScore rows raw i).toList) []

/-- A dimension's entry for a category key: present-value mean rounded to two
decimals, recorded when values exist and the key is visible or one of
Self/Others (`g in visible_groups or g in ['Self','Combined','Others']`). -/
def dimGroupScore (rows : List RatingRow) (raw : Category → ℕ)
    (s e : ℕ) (g : Category) : Option ℚ :=
  if dimCatValues rows raw s e g ≠ []
      ∧ (g ∈ (foldGroups raw).1 ∨ g = Category.Self ∨ g = Category.Others) then
    some (round2 (qMean (dimCatValues rows raw s e g)))
  else none

/-- A dimension's Combined entry (the key `'Combined'` is always allowed). -/
def dimCombinedScore (rows : List RatingRow) (raw : Category → ℕ) (s e : ℕ) : Option ℚ :=
  if dimCombValues rows raw s e ≠ [] then some (round2 (qMean (dimCombValues rows raw s e)))
  else none

/-- A dimension's Gap: set when both the Self and the Combined entries exist. -/
def dimGap (rows : List RatingRow) (raw : Category → ℕ) (s e : ℕ) : Option ℚ :=
  match dimGroupScore rows raw s e Category.Self, dimCombinedScore rows raw s e with
  | some a, some c => some (round2 (a - c))
  | _, _ => none

/-!
Feedback submission (database.py, `submit_ratings`): a submitted value is an
integer-coercible score, the sentinel `'NO'` or the sentinel `'NA'`; `'NO'`
stores a NULL score with the no-opportunity flag, `'NA'` stores a NULL score
with neither flag the aggregation query reads, and anything else stores the
coerced integer with both flags false.
-/

/-- A submitted rating value. -/
inductive RatingValue
  | score (n : ℤ)
  | NO
  | NA
deriving DecidableEq

/-- One rater's submitted answer to one item. -/
structure Submission where
  relationship : Category
  item_number : ℕ
  value : RatingValue
deriving DecidableEq

/-- The ratings-table row produced by `submit_ratings` for one submission,
joined with the rater's relationship. -/
def mkRow (s : Submission) : RatingRow :=
  match s.value with
  | RatingValue.score n => ⟨s.item_number, s.relationship, some n, false⟩
  | RatingValue.NO => ⟨s.item_number, s.relationship, none, true⟩
  | RatingValue.NA => ⟨s.item_number, s.relationship, none, false⟩

/-- The rating rows a list of submissions produces. -/
def ratingRowsOf (subs : List Submission) : List RatingRow := subs.map mkRow

/-!
PAPU-NANU categorisation (report_generator.py, `categorize_papu_nanu`).
-/

/-- The four developmental quadrants. -/
inductive PapuCat
  | agreed_strengths
  | good_news
  | development_areas
  | hidden_talents
deriving DecidableEq

/-- The branch structure of `categorize_papu_nanu` for one eligible item:
`combined >= H` splits first, then the gap tests (each guarded by
`gap is not None`) pick the quadrant. -/
def papuClass (combined : ℚ) (gap : Option ℚ) : PapuCat :=
  if HIGH_SCORE_THRESHOLD ≤ combined then
    if gap.isSome ∧ gap.getD 0 < -SIGNIFICANT_GAP then PapuCat.good_news
    else if gap.isSome ∧ SIGNIFICANT_GAP < gap.getD 0 then PapuCat.hidden_talents
    else PapuCat.agreed_strengths
  else
    if gap.isSome ∧ SIGNIFICANT_GAP < gap.getD 0 then PapuCat.hidden_talents
    else PapuCat.development_areas

/-- The quadrant assigned to an item of the aggregated data: overall items
are skipped, items lacking Self or Combined are skipped, every other item is
classified. -/
def papuItemCat (rows : List RatingRow) (raw : Category → ℕ) (item : ℕ) : Option PapuCat :=
  if item ∈ OVERALL_ITEMS then none
  else
    match selfScoreOf rows raw item, combinedScore rows raw item with
    | some _, some c => some (papuClass c (gapScore rows raw item))
    | _, _ => none

/-- Membership of the four category lists built by the loop over
`data['by_item']` (keys 1..47): the sort applied afterwards permutes each
list but does not change membership. -/
def papuList (rows : List RatingRow) (raw : Category → ℕ) (cat : PapuCat) : List ℕ :=
  (List.range' 1 47).filter (fun i => papuItemCat rows raw i = some cat)

/-- Count of a category in a list of categories. -/
def countCat (g : Category) (l : List Category) : ℕ :=
  (l.filter (fun x => x = g)).length

/-!
Comparison definitions, written from the spec's wording, for the claims that
compare the code against the spec text.
-/

/-- Spec wording of C3: Combined as the mean of only the per-item scores of
categories that are in `visible_groups`. -/
def combinedClaimVisibleOnly (rows : List RatingRow) (raw : Category → ℕ)
    (item : ℕ) : Option ℚ :=
  if ([Category.Boss, Category.Peers, Category.DRs, Category.Others].filterMap
        (fun g => if g ∈ (foldGroups raw).1
                  then groupScore rows (foldGroups raw).2 item g else none)) = []
  then none
  else some (round2 (qMean
    ([Category.Boss, Category.Peers, Category.DRs, Category.Others].filterMap
        (fun g => if g ∈ (foldGroups raw).1
                  then groupScore rows (foldGroups raw).2 item g else none))))

/-- Amended wording of C3: Combined as the mean of the present per-item
scores of the categories that are visible or are the Others bucket itself. -/
def combinedVisibleOrOthers (rows : List RatingRow) (raw : Category → ℕ)
    (item : ℕ) : Option ℚ :=
  if ([Category.Boss, Category.Peers, Category.DRs, Category.Others].filterMap
        (fun g => if g ∈ (foldGroups raw).1 ∨ g = Category.Others
                  then groupScore rows (foldGroups raw).2 item g else none)) = []
  then none
  else some (round2 (qMean
    ([Category.Boss, Category.Peers, Category.DRs, Category.Others].filterMap
        (fun g => if g ∈ (foldGroups raw).1 ∨ g = Category.Others
                  then groupScore rows (foldGroups raw).2 item g else none))))

/-- The five classification rules of claim C4, first match wins, read with a
present Gap exactly as the claim states them; no rule covers
`Combined < H ∧ Gap < -G`. -/
def claimPapuRules (combined gap : ℚ) : Option PapuCat :=
  if HIGH_SCORE_THRESHOLD ≤ combined ∧ gap < -SIGNIFICANT_GAP then
    some PapuCat.good_news
  else if HIGH_SCORE_THRESHOLD ≤ combined ∧ SIGNIFICANT_GAP < gap then
    some PapuCat.hidden_talents
  else if HIGH_SCORE_THRESHOLD ≤ combined ∧ |gap| ≤ SIGNIFICANT_GAP then
    some PapuCat.agreed_strengths
  else if combined < HIGH_SCORE_THRESHOLD ∧ SIGNIFICANT_GAP < gap then
    some PapuCat.hidden_talents
  else if combined < HIGH_SCORE_THRESHOLD ∧ |gap| ≤ SIGNIFICANT_GAP then
    some PapuCat.development_areas
  else none

/-- The rules of claim C4 amended in the last rule only: the final
Development Areas rule reads `Combined < H ∧ Gap ≤ +G`, so that a low
Combined with a large negative gap is a Development Area. -/
def amendedPapuRules (combined gap : ℚ) : Option PapuCat :=
  if HIGH_SCORE_THRESHOLD ≤ combined ∧ gap < -SIGNIFICANT_GAP then
    some PapuCat.good_news
  else if HIGH_SCORE_THRESHOLD ≤ combined ∧ SIGNIFICANT_GAP < gap then
    some PapuCat.hidden_talents
  else if HIGH_SCORE_THRESHOLD ≤ combined ∧ |gap| ≤ SIGNIFICANT_GAP then
    some PapuCat.agreed_strengths
  else if combined < HIGH_SCORE_THRESHOLD ∧ SIGNIFICANT_GAP < gap then
    some PapuCat.hidden_talents
  else if combined < HIGH_SCORE_THRESHOLD ∧ gap ≤ SIGNIFICANT_GAP then
    some PapuCat.development_areas
  else none

/-- Spec wording of C8: the numeric values submitted for an item and mapped
group are exactly the integer-scored submissions for it. -/
def specNumericValues (subs : List Submission) (hid : List Category)
    (item : ℕ) (g : Category) : List ℤ :=
  subs.filterMap (fun s =>
    if s.item_number = item ∧ map_group hid s.relationship = g then
      match s.value with
      | RatingValue.score n => some n
      | _ => none
    else none)

/-- Spec wording of C8: the no-opportunity submissions for an item and
mapped group. -/
def specNoOppCount (subs : List Submission) (hid : List Category)
    (item : ℕ) (g : Category) : ℕ :=
  (subs.filter (fun s =>
    s.item_number = item ∧ map_group hid s.relationship = g
      ∧ s.value = RatingValue.NO)).length

/-!
Concrete inputs used by counterexamples and witnesses.
-/

/-- A leader with a single completed Others rater. -/
def rawC1 : Category → ℕ := fun g => if g = Category.Others then 1 else 0

/-- A leader whose one Others rater scored item 1 a 4, with a completed Self
rater scoring it 5. -/
def rawC3 : Category → ℕ :=
  fun g => if g = Category.Others then 1 else if g = Category.Self then 1 else 0

/-- Rating rows for `rawC3`. -/
def rowsC3 : List RatingRow :=
  [⟨1, Category.Others, some 4, false⟩, ⟨1, Category.Self, some 5, false⟩]

/-- A leader with completed Self and Boss raters only. -/
def rawW : Category → ℕ :=
  fun g => if g = Category.Self then 1 else if g = Category.Boss then 1 else 0

/-- Rating rows for `rawW`: Self scored item 1 a 5, Boss scored it 4. -/
def rowsW : List RatingRow :=
  [⟨1, Category.Self, some 5, false⟩, ⟨1, Category.Boss, some 4, false⟩]

/-- A leader with exactly three completed Peers raters. -/
def rawW1 : Category → ℕ := fun g => if g = Category.Peers then 3 else 0

/-- A leader with exactly two completed Peers raters. -/
def rawW2 : Category → ℕ := fun g => if g = Category.Peers then 2 else 0

/-!
Helper lemmas: rounding.
-/

/-- Evaluation rule for rounding a rational that is known to lie in a unit
interval around an integer. -/
lemma roundInt_eval (q : ℚ) (z : ℤ) (h1 : (z : ℚ) ≤ q + 1/2) (h2 : q + 1/2 < z + 1) :
    roundInt q = z := by
  rw [roundInt, round_eq]
  exact Int.floor_eq_iff.mpr ⟨h1, h2⟩

/-- Rounding an integer to one decimal place returns it unchanged. -/
lemma round1_intCast (n : ℤ) : round1 ((n : ℚ)) = n := by
  unfold round1 roundInt
  have h : (10 : ℚ) * (n : ℚ) = ((10 * n : ℤ) : ℚ) := by push_cast; ring
  rw [h, round_intCast]
  push_cast
  ring

/-- Rounding an integer to two decimal places returns it unchanged. -/
lemma round2_intCast (n : ℤ) : round2 ((n : ℚ)) = n := by
  unfold round2 roundInt
  have h : (100 : ℚ) * (n : ℚ) = ((100 * n : ℤ) : ℚ) := by push_cast; ring
  rw [h, round_intCast]
  push_cast
  ring

lemma round1_four : round1 (4 : ℚ) = 4 := by simpa using round1_intCast 4

lemma round1_five : round1 (5 : ℚ) = 5 := by simpa using round1_intCast 5

lemma round2_four : round2 (4 : ℚ) = 4 := by simpa using round2_intCast 4

lemma round2_one : round2 (1 : ℚ) = 1 := by simpa using round2_intCast 1

/-!
Helper lemmas: anonymity grouping.
-/

/-- Closed form of the visible/hidden computation: each of Peers, DRs and
Others is visible iff its count reaches the threshold, and hidden iff its
count is positive but below the threshold. -/
lemma foldGroups_spec (raw : Category → ℕ) :
    (foldGroups raw).1 = [Category.Self, Category.Boss]
        ++ (if ANONYMITY_THRESHOLD ≤ raw Category.Peers then [Category.Peers] else [])
        ++ (if ANONYMITY_THRESHOLD ≤ raw Category.DRs then [Category.DRs] else [])
        ++ (if ANONYMITY_THRESHOLD ≤ raw Category.Others then [Category.Others] else [])
    ∧ (foldGroups raw).2 =
        (if raw Category.Peers < ANONYMITY_THRESHOLD ∧ 0 < raw Category.Peers then [Category.Peers] else [])
        ++ (if raw Category.DRs < ANONYMITY_THRESHOLD ∧ 0 < raw Category.DRs then [Category.DRs] else [])
        ++ (if raw Category.Others < ANONYMITY_THRESHOLD ∧ 0 < raw Category.Others then [Category.Others] else []) := by
  simp only [foldGroups, List.foldl, groupStep]
  split_ifs <;> simp_all <;> omega

lemma self_mem_vis (raw : Category → ℕ) : Category.Self ∈ (foldGroups raw).1 := by
  rw [(foldGroups_spec raw).1]
  simp

lemma boss_mem_vis (raw : Category → ℕ) : Category.Boss ∈ (foldGroups raw).1 := by
  rw [(foldGroups_spec raw).1]
  simp

lemma mem_vis_iff (raw : Category → ℕ) (g : Category)
    (hg : g = Category.Peers ∨ g = Category.DRs ∨ g = Category.Others) :
    g ∈ (foldGroups raw).1 ↔ ANONYMITY_THRESHOLD ≤ raw g := by
  rcases hg with rfl | rfl | rfl <;>
    · rw [(foldGroups_spec raw).1]
      split_ifs <;> simp_all

lemma mem_hid_iff (raw : Category → ℕ) (g : Category)
    (hg : g = Category.Peers ∨ g = Category.DRs ∨ g = Category.Others) :
    g ∈ (foldGroups raw).2 ↔ 0 < raw g ∧ raw g < ANONYMITY_THRESHOLD := by
  rcases hg with rfl | rfl | rfl <;>
    · rw [(foldGroups_spec raw).2]
      split_ifs <;> simp_all <;> omega

lemma self_not_mem_hid (raw : Category → ℕ) : Category.Self ∉ (foldGroups raw).2 := by
  rw [(foldGroups_spec raw).2]
  split_ifs <;> simp_all

lemma boss_not_mem_hid (raw : Category → ℕ) : Category.Boss ∉ (foldGroups raw).2 := by
  rw [(foldGroups_spec raw).2]
  split_ifs <;> simp_all

/-- Closed form of the `response_counts` loop result. -/
lemma countsPair_spec (raw : Category → ℕ) :
    countsPair raw =
      ([(Category.Self, raw Category.Self), (Category.Boss, raw Category.Boss)]
        ++ (if ANONYMITY_THRESHOLD ≤ raw Category.Peers then [(Category.Peers, raw Category.Peers)] else [])
        ++ (if ANONYMITY_THRESHOLD ≤ raw Category.DRs then [(Category.DRs, raw Category.DRs)] else []),
       raw Category.Others
        + (if raw Category.Peers < ANONYMITY_THRESHOLD ∧ 0 < raw Category.Peers then raw Category.Peers else 0)
        + (if raw Category.DRs < ANONYMITY_THRESHOLD ∧ 0 < raw Category.DRs then raw Category.DRs else 0)) := by
  have hsv := self_mem_vis raw
  have hbv := boss_mem_vis raw
  have hpv := mem_vis_iff raw Category.Peers (Or.inl rfl)
  have hdv := mem_vis_iff raw Category.DRs (Or.inr (Or.inl rfl))
  have hph := mem_hid_iff raw Category.Peers (Or.inl rfl)
  have hdh := mem_hid_iff raw Category.DRs (Or.inr (Or.inl rfl))
  simp only [countsPair, List.foldl, countStep, if_pos hsv, if_pos hbv, hpv, hdv, hph, hdh]
  split_ifs <;> simp_all [ANONYMITY_THRESHOLD] <;> omega

/-- Closed form of `others_count`. -/
lemma othersCount_spec (raw : Category → ℕ) :
    othersCount raw = raw Category.Others
      + (if raw Category.Peers < ANONYMITY_THRESHOLD ∧ 0 < raw Category.Peers then raw Category.Peers else 0)
      + (if raw Category.DRs < ANONYMITY_THRESHOLD ∧ 0 < raw Category.DRs then raw Category.DRs else 0) := by
  rw [othersCount, countsPair_spec]

/-- Peers or DRs appear in `response_counts` exactly when they reach the
anonymity threshold. -/
lemma mem_counts_peers_drs (raw : Category → ℕ) (g : Category)
    (hg : g = Category.Peers ∨ g = Category.DRs) :
    (∃ n, (g, n) ∈ mkResponseCounts raw) ↔ ANONYMITY_THRESHOLD ≤ raw g := by
  rcases hg with rfl | rfl <;>
    · rw [mkResponseCounts]
      rw [countsPair_spec] ; rw [othersCount_spec]
      split_ifs <;> simp_all

/-- Others appears in `response_counts` exactly when the folded total is
positive or Others is itself visible. -/
lemma mem_counts_others (raw : Category → ℕ) :
    (∃ n, (Category.Others, n) ∈ mkResponseCounts raw) ↔
      0 < othersCount raw ∨ ANONYMITY_THRESHOLD ≤ raw Category.Others := by
  have hov := mem_vis_iff raw Category.Others (Or.inr (Or.inr rfl))
  rw [mkResponseCounts]
  split_ifs with h
  · rw [hov] at h
    exact iff_of_true ⟨othersCount raw, by simp⟩ h
  · rw [hov] at h
    push_neg at h
    constructor
    · rintro ⟨n, hn⟩
      rw [countsPair_spec] at hn
      split_ifs at hn <;> simp_all
    · intro hc
      rcases hc with h1 | h2 <;> omega

/-- When Others appears in `response_counts`, its value is the folded total. -/
lemma mem_counts_others_val (raw : Category → ℕ)
    (h : 0 < othersCount raw ∨ ANONYMITY_THRESHOLD ≤ raw Category.Others) :
    (Category.Others, othersCount raw) ∈ mkResponseCounts raw := by
  have hov := mem_vis_iff raw Category.Others (Or.inr (Or.inr rfl))
  have h' : 0 < othersCount raw ∨ Category.Others ∈ (foldGroups raw).1 := by
    rw [hov]
    exact h
  rw [mkResponseCounts, if_pos h']
  simp

/-!
Helper lemmas: list folds of the aggregation loops.
-/

lemma scoreStep_acc (hid : List Category) (item : ℕ) (g : Category)
    (acc : List ℤ) (r : RatingRow) :
    scoreStep hid item g acc r = acc ++ scoreStep hid item g [] r := by
  unfold scoreStep
  split_ifs <;> simp

lemma foldl_scoreStep_acc (hid : List Category) (item : ℕ) (g : Category)
    (rows : List RatingRow) (acc : List ℤ) :
    rows.foldl (scoreStep hid item g) acc = acc ++ rows.foldl (scoreStep hid item g) [] := by
  induction rows generalizing acc with
  | nil => simp
  | cons r rows ih =>
      rw [List.foldl_cons, List.foldl_cons, ih (scoreStep hid item g acc r),
        ih (scoreStep hid item g [] r), scoreStep_acc, List.append_assoc]

lemma itemScores_cons (hid : List Category) (item : ℕ) (g : Category)
    (r : RatingRow) (rows : List RatingRow) :
    itemScores (r :: rows) hid item g
      = scoreStep hid item g [] r ++ itemScores rows hid item g := by
  rw [itemScores, List.foldl_cons, foldl_scoreStep_acc]
  rfl

lemma noOppStep_acc (hid : List Category) (item : ℕ) (g : Category)
    (n : ℕ) (r : RatingRow) :
    noOppStep hid item g n r = n + noOppStep hid item g 0 r := by
  unfold noOppStep
  split_ifs <;> omega

lemma foldl_noOppStep_acc (hid : List Category) (item : ℕ) (g : Category)
    (rows : List RatingRow) (n : ℕ) :
    rows.foldl (noOppStep hid item g) n = n + rows.foldl (noOppStep hid item g) 0 := by
  induction rows generalizing n with
  | nil => simp
  | cons r rows ih =>
      rw [List.foldl_cons, List.foldl_cons, ih (noOppStep hid item g n r),
        ih (noOppStep hid item g 0 r), noOppStep_acc, Nat.add_assoc]

lemma itemNoOpp_cons (hid : List Category) (item : ℕ) (g : Category)
    (r : RatingRow) (rows : List RatingRow) :
    itemNoOpp (r :: rows) hid item g
      = noOppStep hid item g 0 r + itemNoOpp rows hid item g := by
  rw [itemNoOpp, List.foldl_cons, foldl_noOppStep_acc]
  rfl

lemma foldl_toList_acc {α β : Type} (h : α → Option β) (l : List α) (acc : List β) :
    l.foldl (fun a x => a ++ (h x).toList) acc = acc ++ l.filterMap h := by
  induction l generalizing acc with
  | nil => simp
  | cons x xs ih =>
      rw [List.foldl_cons, ih, List.filterMap_cons]
      cases h x <;> simp

/-- The `other_scores` loop collects exactly the present group scores of the
allowed categories. -/
lemma otherScoresList_eq (rows : List RatingRow) (raw : Category → ℕ) (item : ℕ) :
    otherScoresList rows raw item
      = [Category.Boss, Category.Peers, Category.DRs, Category.Others].filterMap
          (fun g => if g ∈ (foldGroups raw).1 ∨ g = Category.Others
                    then groupScore rows (foldGroups raw).2 item g else none) := by
  rw [otherScoresList]
  have hstep : combStep rows (foldGroups raw).1 (foldGroups raw).2 item
      = fun a x => a ++ ((fun g => if g ∈ (foldGroups raw).1 ∨ g = Category.Others
                    then groupScore rows (foldGroups raw).2 item g else none) x).toList := by
    funext a x
    unfold combStep
    split_ifs with h <;> simp [h]
  rw [hstep, foldl_toList_acc]
  simp

/-- Count of one category in the replicated-groups list. -/
lemma countCat_replicate (g g' : Category) (n : ℕ) :
    countCat g (List.replicate n g') = if g' = g then n else 0 := by
  induction n with
  | zero => simp [countCat]
  | succ n ih =>
      rw [List.replicate_succ]
      unfold countCat at ih ⊢
      rw [List.filter_cons]
      split_ifs at * <;> simp_all

lemma countCat_append (g : Category) (l1 l2 : List Category) :
    countCat g (l1 ++ l2) = countCat g l1 + countCat g l2 := by
  simp [countCat, List.filter_append]

/-- Each category occurs in the `no_opportunity` groups list exactly its
per-group no-opportunity count many times. -/
lemma countCat_noOppGroups (rows : List RatingRow) (hid : List Category)
    (item : ℕ) (g : Category) :
    countCat g (noOppGroups rows hid item) = itemNoOpp rows hid item g := by
  rw [noOppGroups]
  simp only [allCategories, List.foldl, List.nil_append]
  simp only [countCat_append, countCat_replicate]
  cases g <;> simp

lemma round1_seven : round1 (7 : ℚ) = 7 := by simpa using round1_intCast 7

/-- Membership in one of the four category lists. -/
lemma mem_papuList_iff (rows : List RatingRow) (raw : Category → ℕ)
    (cat : PapuCat) (item : ℕ) :
    item ∈ papuList rows raw cat ↔
      1 ≤ item ∧ item < 48 ∧ papuItemCat rows raw item = some cat := by
  simp [papuList, List.mem_filter, List.mem_range'_1, and_assoc]

/-!
Helper lemmas: submission rows.
-/

lemma scoreStep_mkRow (hid : List Category) (item : ℕ) (g : Category) (s : Submission) :
    scoreStep hid item g [] (mkRow s) =
      (if s.item_number = item ∧ map_group hid s.relationship = g then
        (match s.value with
         | RatingValue.score n => [n]
         | RatingValue.NO => []
         | RatingValue.NA => []) else []) := by
  rcases s with ⟨rel, it, v⟩
  cases v <;> simp only [mkRow, scoreStep] <;> split_ifs <;> simp_all

lemma noOppStep_mkRow (hid : List Category) (item : ℕ) (g : Category) (s : Submission) :
    noOppStep hid item g 0 (mkRow s) =
      (if s.item_number = item ∧ map_group hid s.relationship = g
          ∧ s.value = RatingValue.NO then 1 else 0) := by
  rcases s with ⟨rel, it, v⟩
  cases v <;> simp only [mkRow, noOppStep] <;> split_ifs <;> simp_all

lemma specNumericValues_cons (s : Submission) (subs : List Submission)
    (hid : List Category) (item : ℕ) (g : Category) :
    specNumericValues (s :: subs) hid item g =
      (if s.item_number = item ∧ map_group hid s.relationship = g then
        (match s.value with
         | RatingValue.score n => [n]
         | RatingValue.NO => []
         | RatingValue.NA => []) else [])
      ++ specNumericValues subs hid item g := by
  rw [specNumericValues, specNumericValues, List.filterMap_cons]
  split_ifs with h
  · cases s.value <;> simp
  · simp

lemma specNoOppCount_cons (s : Submission) (subs : List Submission)
    (hid : List Category) (item : ℕ) (g : Category) :
    specNoOppCount (s :: subs) hid item g =
      (if s.item_number = item ∧ map_group hid s.relationship = g
          ∧ s.value = RatingValue.NO then 1 else 0)
      + specNoOppCount subs hid item g := by
  rw [specNoOppCount, specNoOppCount, List.filter_cons]
  split_ifs with h h' <;> simp_all
  all_goals omega

/-- The numeric scores the aggregation collects from submitted rows are
exactly the integer-valued submissions. -/
lemma itemScores_rowsOf (subs : List Submission) (hid : List Category)
    (item : ℕ) (g : Category) :
    itemScores (ratingRowsOf subs) hid item g = specNumericValues subs hid item g := by
  induction subs with
  | nil => rfl
  | cons s subs ih =>
      simp only [ratingRowsOf, List.map_cons] at ih ⊢
      rw [itemScores_cons, scoreStep_mkRow, specNumericValues_cons, ih]

/-- The no-opportunity count the aggregation collects from submitted rows is
exactly the number of NO submissions. -/
lemma itemNoOpp_rowsOf (subs : List Submission) (hid : List Category)
    (item : ℕ) (g : Category) :
    itemNoOpp (ratingRowsOf subs) hid item g = specNoOppCount subs hid item g := by
  induction subs with
  | nil => rfl
  | cons s subs ih =>
      simp only [ratingRowsOf, List.map_cons] at ih ⊢
      rw [itemNoOpp_cons, noOppStep_mkRow, specNoOppCount_cons, ih]

/-!
Claim theorems.
-/

/-- C1, counterexample: with a single completed Others rater the code puts
the key Others into `response_counts` with its raw count 1, although
1 is below the anonymity threshold and Others is neither Self nor Boss —
refuting the claim that no category outside Self/Boss appears individually
in `response_counts` unless its raw completed count reaches the threshold. -/
theorem C1_counterexample :
    (Category.Others, 1) ∈ mkResponseCounts rawC1
    ∧ rawC1 Category.Others < ANONYMITY_THRESHOLD
    ∧ Category.Others ≠ Category.Self ∧ Category.Others ≠ Category.Boss := by
  decide

/-- C1 (amended): for every leader, each of Peers, DRs and Others is in
`visible_groups` iff its raw completed count reaches the anonymity
threshold; Peers and DRs appear in `response_counts` iff they reach the
threshold; but the Others key appears in `response_counts` whenever the
folded Others total is positive or Others is itself visible, even when the
raw Others count is below the threshold. -/
theorem C1_anonymity_amended (raw : Category → ℕ) (g : Category) :
    (g = Category.Peers ∨ g = Category.DRs ∨ g = Category.Others →
      (g ∈ (foldGroups raw).1 ↔ ANONYMITY_THRESHOLD ≤ raw g))
    ∧ (g = Category.Peers ∨ g = Category.DRs →
      ((∃ n, (g, n) ∈ mkResponseCounts raw) ↔ ANONYMITY_THRESHOLD ≤ raw g))
    ∧ ((∃ n, (Category.Others, n) ∈ mkResponseCounts raw) ↔
        0 < othersCount raw ∨ ANONYMITY_THRESHOLD ≤ raw Category.Others) :=
  ⟨mem_vis_iff raw g, mem_counts_peers_drs raw g, mem_counts_others raw⟩

/-- Witness for C1: a leader with exactly three completed Peers raters has
Peers visible. -/
theorem C1_witness : Category.Peers ∈ (foldGroups rawW1).1 :=
  ((C1_anonymity_amended rawW1 Category.Peers).1 (Or.inl rfl)).mpr (by decide)

/-- C2, counterexample: a category whose completed count is 0 (below the
threshold) is not recorded in `hidden_groups`, refuting the claim that any
count below the threshold, including 0, lands the category in
`hidden_groups`. -/
theorem C2_counterexample :
    (fun _ : Category => (0 : ℕ)) Category.Peers < ANONYMITY_THRESHOLD
    ∧ Category.Peers ∉ (foldGroups (fun _ : Category => (0 : ℕ))).2 := by
  decide

/-- C2 (amended): for each of Peers, DRs and Others, a count at or above the
threshold makes the category visible; the category is recorded in
`hidden_groups` exactly when its count is strictly between 0 and the
threshold (a zero-count category is in neither list); the Others bucket of
`response_counts` is the raw Others count plus the counts of the hidden
Peers/DRs groups, and its key is present exactly when that total is positive
or Others is itself visible. -/
theorem C2_folding_amended (raw : Category → ℕ) (g : Category)
    (hg : g = Category.Peers ∨ g = Category.DRs ∨ g = Category.Others) :
    (ANONYMITY_THRESHOLD ≤ raw g → g ∈ (foldGroups raw).1)
    ∧ (g ∈ (foldGroups raw).2 ↔ 0 < raw g ∧ raw g < ANONYMITY_THRESHOLD)
    ∧ othersCount raw = raw Category.Others
        + (if Category.Peers ∈ (foldGroups raw).2 then raw Category.Peers else 0)
        + (if Category.DRs ∈ (foldGroups raw).2 then raw Category.DRs else 0)
    ∧ ((Category.Others, othersCount raw) ∈ mkResponseCounts raw ↔
        0 < othersCount raw ∨ ANONYMITY_THRESHOLD ≤ raw Category.Others) := by
  refine ⟨fun h => (mem_vis_iff raw g hg).mpr h, mem_hid_iff raw g hg, ?_, ?_, ?_⟩
  · simp only [mem_hid_iff raw Category.Peers (Or.inl rfl),
      mem_hid_iff raw Category.DRs (Or.inr (Or.inl rfl)), othersCount_spec]
    split_ifs <;> omega
  · intro hm
    exact (mem_counts_others raw).mp ⟨othersCount raw, hm⟩
  · exact mem_counts_others_val raw

/-- Witness for C2: a leader with exactly two completed Peers raters has
Peers hidden. -/
theorem C2_witness : Category.Peers ∈ (foldGroups rawW2).2 :=
  ((C2_folding_amended rawW2 Category.Peers (Or.inl rfl)).2.1).mpr (by decide)

/-- C5: the values of `response_counts` and of `raw_response_counts` have
the same sum — anonymity folding moves completed-rater counts between
categories but neither drops nor double-counts a rater. -/
theorem C5_count_conservation (raw : Category → ℕ) :
    ((mkResponseCounts raw).map Prod.snd).sum
      = ((rawCountsList raw).map Prod.snd).sum := by
  have hpair : ((countsPair raw).1.map Prod.snd).sum
      = raw Category.Self + raw Category.Boss
        + (if ANONYMITY_THRESHOLD ≤ raw Category.Peers then raw Category.Peers else 0)
        + (if ANONYMITY_THRESHOLD ≤ raw Category.DRs then raw Category.DRs else 0) := by
    rw [countsPair_spec]
    split_ifs <;> simp <;> omega
  have hraw : ((rawCountsList raw).map Prod.snd).sum
      = raw Category.Self + raw Category.Boss + raw Category.Peers
        + raw Category.DRs + raw Category.Others := by
    rw [rawCountsList]
    simp only [allCategories, List.foldl]
    split_ifs <;> simp_all <;> omega
  have hoc := othersCount_spec raw
  rw [mkResponseCounts]
  split_ifs with h
  · rw [List.map_append, List.sum_append, hpair, hraw]
    simp only [List.map_cons, List.map_nil, List.sum_cons, List.sum_nil]
    rw [hoc]
    split_ifs <;> omega
  · rw [hpair, hraw]
    push_neg at h
    obtain ⟨h1, h2⟩ := h
    rw [hoc] at h1
    rw [mem_vis_iff raw Category.Others (Or.inr (Or.inr rfl))] at h2
    split_ifs at h1 <;> split_ifs <;> omega

/-- C4, counterexample: an eligible item with Combined 3.9 and Gap -0.9
matches none of the five claimed rules (Combined < H and Gap < -G falls
through them all), yet the code classifies it as a Development Area — so the
code does not classify every eligible item by exactly those rules. -/
theorem C4_counterexample :
    claimPapuRules (39/10) (-(9/10)) = none
    ∧ papuClass (39/10) (some (-(9/10))) = PapuCat.development_areas := by
  constructor
  · unfold claimPapuRules
    rw [if_neg, if_neg, if_neg, if_neg, if_neg]
    · norm_num [HIGH_SCORE_THRESHOLD, SIGNIFICANT_GAP, abs_le]
    · norm_num [HIGH_SCORE_THRESHOLD, SIGNIFICANT_GAP]
    · norm_num [HIGH_SCORE_THRESHOLD, SIGNIFICANT_GAP, abs_le]
    · norm_num [HIGH_SCORE_THRESHOLD, SIGNIFICANT_GAP]
    · norm_num [HIGH_SCORE_THRESHOLD, SIGNIFICANT_GAP]
  · unfold papuClass
    rw [if_neg, if_neg]
    · norm_num [SIGNIFICANT_GAP]
    · norm_num [HIGH_SCORE_THRESHOLD]

/-- C4 (amended): with the fifth rule widened to `Combined < H and
Gap ≤ +G`, the five rules, evaluated in order with first match winning,
agree with the code's classification on every eligible item with a present
Gap. -/
theorem C4_papu_amended (c g : ℚ) :
    amendedPapuRules c g = some (papuClass c (some g)) := by
  have hps : papuClass c (some g) =
      if HIGH_SCORE_THRESHOLD ≤ c then
        (if g < -SIGNIFICANT_GAP then PapuCat.good_news
         else if SIGNIFICANT_GAP < g then PapuCat.hidden_talents
         else PapuCat.agreed_strengths)
      else (if SIGNIFICANT_GAP < g then PapuCat.hidden_talents
            else PapuCat.development_areas) := by
    unfold papuClass
    simp
  rw [hps]
  unfold amendedPapuRules
  rcases le_or_lt HIGH_SCORE_THRESHOLD c with hA | hA
  · rcases lt_or_le g (-SIGNIFICANT_GAP) with hg1 | hg1
    · rw [if_pos ⟨hA, hg1⟩, if_pos hA, if_pos hg1]
    · have hng1 : ¬ g < -SIGNIFICANT_GAP := not_lt.mpr hg1
      rcases lt_or_le SIGNIFICANT_GAP g with hg2 | hg2
      · rw [if_neg (fun h => hng1 h.2), if_pos ⟨hA, hg2⟩, if_pos hA, if_neg hng1, if_pos hg2]
      · have habs : |g| ≤ SIGNIFICANT_GAP := abs_le.mpr ⟨hg1, hg2⟩
        have hng2 : ¬ SIGNIFICANT_GAP < g := not_lt.mpr hg2
        rw [if_neg (fun h => hng1 h.2), if_neg (fun h => hng2 h.2), if_pos ⟨hA, habs⟩,
          if_pos hA, if_neg hng1, if_neg hng2]
  · have hnA : ¬ HIGH_SCORE_THRESHOLD ≤ c := not_le.mpr hA
    rcases lt_or_le SIGNIFICANT_GAP g with hg2 | hg2
    · rw [if_neg (fun h => hnA h.1), if_neg (fun h => hnA h.1), if_neg (fun h => hnA h.1),
        if_pos ⟨hA, hg2⟩, if_neg hnA, if_pos hg2]
    · have hng2 : ¬ SIGNIFICANT_GAP < g := not_lt.mpr hg2
      rw [if_neg (fun h => hnA h.1), if_neg (fun h => hnA h.1), if_neg (fun h => hnA h.1),
        if_neg (fun h => hng2 h.2), if_pos ⟨hA, hg2⟩, if_neg hnA, if_neg hng2]

/-- C6: per item and per dimension, the Gap exists exactly when both the
Self score and the Combined score exist, and then equals Self minus Combined
rounded to two decimal places. -/
theorem C6_gap_symmetry (rows : List RatingRow) (raw : Category → ℕ) (item s e : ℕ) :
    (∀ a c, selfScoreOf rows raw item = some a → combinedScore rows raw item = some c →
        gapScore rows raw item = some (round2 (a - c)))
    ∧ (selfScoreOf rows raw item = none ∨ combinedScore rows raw item = none →
        gapScore rows raw item = none)
    ∧ (∀ a c, dimGroupScore rows raw s e Category.Self = some a →
        dimCombinedScore rows raw s e = some c →
        dimGap rows raw s e = some (round2 (a - c)))
    ∧ (dimGroupScore rows raw s e Category.Self = none
        ∨ dimCombinedScore rows raw s e = none →
        dimGap rows raw s e = none) := by
  refine ⟨?_, ?_, ?_, ?_⟩
  · intro a c ha hc
    rw [gapScore, hc, ha]
  · intro h
    rw [gapScore]
    rcases h with h | h
    · rcases hc : combinedScore rows raw item with _ | c
      · rfl
      · rw [h]
    · rw [h]
  · intro a c ha hc
    rw [dimGap, hc, ha]
  · intro h
    rw [dimGap]
    rcases h with h | h
    · rcases hc : dimCombinedScore rows raw s e with _ | c <;> rw [h]
    · rcases ha : dimGroupScore rows raw s e Category.Self with _ | a <;> rw [h]

/-- Witness for C6: with a Self score of 5 and a Boss score of 4 on item 1,
the Gap is round2 of 5 minus 4. -/
theorem C6_witness :
    gapScore rowsW rawW 1 = some (round2 (5 - 4)) :=
  (C6_gap_symmetry rowsW rawW 1 1 5).1 5 4
    (by simp [selfScoreOf, groupScore, itemScores, List.foldl, scoreStep, map_group,
        foldGroups, groupStep, rawW, rowsW, ANONYMITY_THRESHOLD, intMean, round1_five])
    (by simp [combinedScore, otherScoresList, combStep, groupScore, itemScores,
        List.foldl, scoreStep, map_group, foldGroups, groupStep, rawW, rowsW,
        ANONYMITY_THRESHOLD, intMean, qMean, round1_four, round2_four])

/-- C7: every non-overall item (1..47, not 46/47) with both a Self and a
Combined score appears in exactly one of the four PAPU-NANU category lists;
an item lacking either score appears in none; the overall items 46 and 47
appear in none. -/
theorem C7_papu_partition (rows : List RatingRow) (raw : Category → ℕ) (item : ℕ)
    (h1 : 1 ≤ item) (h2 : item ≤ 47) :
    (item ∉ OVERALL_ITEMS → (selfScoreOf rows raw item).isSome →
      (combinedScore rows raw item).isSome →
      ∃! cat : PapuCat, item ∈ papuList rows raw cat)
    ∧ (¬((selfScoreOf rows raw item).isSome ∧ (combinedScore rows raw item).isSome) →
      ∀ cat, item ∉ papuList rows raw cat)
    ∧ (item ∈ OVERALL_ITEMS → ∀ cat, item ∉ papuList rows raw cat) := by
  refine ⟨?_, ?_, ?_⟩
  · intro hov hs hc
    obtain ⟨a, ha⟩ := Option.isSome_iff_exists.mp hs
    obtain ⟨c, hcc⟩ := Option.isSome_iff_exists.mp hc
    have hcat : papuItemCat rows raw item
        = some (papuClass c (gapScore rows raw item)) := by
      rw [papuItemCat, if_neg hov, ha, hcc]
    refine ⟨papuClass c (gapScore rows raw item), ?_, ?_⟩
    · exact (mem_papuList_iff rows raw (papuClass c (gapScore rows raw item)) item).mpr
        ⟨h1, by omega, hcat⟩
    · intro cat hmem
      rw [mem_papuList_iff] at hmem
      have := hmem.2.2
      rw [hcat] at this
      exact (Option.some_inj.mp this).symm
  · intro hne cat hmem
    rw [mem_papuList_iff] at hmem
    have hcat := hmem.2.2
    rw [papuItemCat] at hcat
    rcases Decidable.em (item ∈ OVERALL_ITEMS) with hov | hov
    · rw [if_pos hov] at hcat
      exact Option.noConfusion hcat
    · rw [if_neg hov] at hcat
      rcases ha : selfScoreOf rows raw item with _ | a <;>
        rcases hc : combinedScore rows raw item with _ | c <;>
          rw [ha, hc] at hcat
      · exact Option.noConfusion hcat
      · exact Option.noConfusion hcat
      · exact Option.noConfusion hcat
      · exact hne ⟨by rw [ha]; rfl, by rw [hc]; rfl⟩
  · intro hov cat hmem
    rw [mem_papuList_iff] at hmem
    have hcat := hmem.2.2
    rw [papuItemCat, if_pos hov] at hcat
    exact Option.noConfusion hcat

/-- Witness for C7: item 1 of the concrete leader (Self 5, Boss 4) lies in
exactly one PAPU-NANU list. -/
theorem C7_witness : ∃! cat : PapuCat, 1 ∈ papuList rowsW rawW cat :=
  (C7_papu_partition rowsW rawW 1 (by decide) (by decide)).1 (by decide)
    (by simp [selfScoreOf, groupScore, itemScores, List.foldl, scoreStep, map_group,
        foldGroups, groupStep, rawW, rowsW, ANONYMITY_THRESHOLD, intMean, round1_five])
    (by simp [combinedScore, otherScoresList, combStep, groupScore, itemScores,
        List.foldl, scoreStep, map_group, foldGroups, groupStep, rawW, rowsW,
        ANONYMITY_THRESHOLD, intMean, qMean, round1_four, round2_four])

/-- C3, counterexample: a leader with one hidden Others rater (count 1,
below threshold) who scored item 1 a 4. Others is not in `visible_groups`,
so a Combined built only from visible non-Self scores would be absent, yet
the code includes the Others score and reports Combined 4 — refuting the
claim that Combined uses only the visible categories. -/
theorem C3_counterexample :
    combinedScore rowsC3 rawC3 1 = some 4
    ∧ combinedClaimVisibleOnly rowsC3 rawC3 1 = none
    ∧ Category.Others ∉ (foldGroups rawC3).1 := by
  refine ⟨?_, ?_, by decide⟩
  · simp [combinedScore, otherScoresList, combStep, groupScore, itemScores,
      List.foldl, scoreStep, map_group, foldGroups, groupStep, rawC3, rowsC3,
      ANONYMITY_THRESHOLD, intMean, qMean, round1_four, round2_four]
  · simp [combinedClaimVisibleOnly, groupScore, itemScores, List.foldl, scoreStep,
      map_group, foldGroups, groupStep, rawC3, rowsC3, ANONYMITY_THRESHOLD]

/-- C3 (amended): for every item, Combined is the mean, rounded to two
decimal places, of the present per-item scores of Boss, Peers and DRs when
visible together with the Others bucket whenever present (whether or not
Others is in `visible_groups`), and is absent when no such score is present. -/
theorem C3_combined_amended (rows : List RatingRow) (raw : Category → ℕ) (item : ℕ) :
    combinedScore rows raw item = combinedVisibleOrOthers rows raw item := by
  rw [combinedScore, combinedVisibleOrOthers, otherScoresList_eq]

/-- C8: for every list of submissions, every mapped group and every item:
the aggregation's collected numeric values are exactly the integer-scored
submissions (NO and NA contribute none), the reported group score is their
mean rounded to one decimal place and is absent when there are none, the
per-group no-opportunity count is exactly the number of NO submissions, and
the no-opportunity groups list counts each mapped group exactly that many
times. -/
theorem C8_score_aggregation (subs : List Submission) (hid : List Category)
    (item : ℕ) (g : Category) :
    itemScores (ratingRowsOf subs) hid item g = specNumericValues subs hid item g
    ∧ itemNoOpp (ratingRowsOf subs) hid item g = specNoOppCount subs hid item g
    ∧ groupScore (ratingRowsOf subs) hid item g =
        (if specNumericValues subs hid item g = [] then none
         else some (round1 (intMean (specNumericValues subs hid item g))))
    ∧ countCat g (noOppGroups (ratingRowsOf subs) hid item)
        = itemNoOpp (ratingRowsOf subs) hid item g := by
  refine ⟨itemScores_rowsOf subs hid item g, itemNoOpp_rowsOf subs hid item g, ?_,
    countCat_noOppGroups (ratingRowsOf subs) hid item g⟩
  rw [groupScore, itemScores_rowsOf]

/-- C9, counterexample: a stored value of 7 — an integer outside the valid
1..5 score range — is not rejected by aggregation: the single-response Boss
average for item 1 becomes 7, silently, with no data-integrity error, so
the claim that such a (rater, item) pair is rejected and surfaced as an
error fails. -/
theorem C9_counterexample :
    groupScore (ratingRowsOf [⟨Category.Boss, 1, RatingValue.score 7⟩]) [] 1 Category.Boss
      = some 7
    ∧ ¬((1 : ℤ) ≤ 7 ∧ (7 : ℤ) ≤ 5) := by
  constructor
  · simp [ratingRowsOf, mkRow, groupScore, itemScores, List.foldl, scoreStep,
      map_group, intMean, round1_seven]
  · decide

/-- C9 (amended): aggregation performs no validity check on stored values —
every stored integer score, whatever its value, is reported unchanged as the
category score of its (rater, item) pair; rejection of malformed values
happens only at submission time, where a non-integer-coercible value raises
before anything is stored. -/
theorem C9_no_validation_amended (n : ℤ) :
    groupScore (ratingRowsOf [⟨Category.Boss, 1, RatingValue.score n⟩]) [] 1 Category.Boss
      = some ((n : ℚ)) := by
  simp [ratingRowsOf, mkRow, groupScore, itemScores, List.foldl, scoreStep,
    map_group, intMean, round1_intCast]

/-- C10: for every leader — with any rating rows, including none — `by_item`
has an entry for every item number 1..47 carrying that item's framework
text, and `overall` consists of exactly the `by_item` entries of items 46
and 47. -/
theorem C10_structure (rows : List RatingRow) (raw : Category → ℕ) (item : ℕ) :
    (1 ≤ item → item ≤ 47 →
      ∃ en, by_item rows raw item = some en ∧ en.text = itemText item)
    ∧ overall rows raw 46 = by_item rows raw 46
    ∧ overall rows raw 47 = by_item rows raw 47
    ∧ (¬(item = 46 ∨ item = 47) → overall rows raw item = none) := by
  refine ⟨?_, ?_, ?_, ?_⟩
  · intro ha hb
    rw [by_item, if_pos ⟨ha, hb⟩]
    exact ⟨_, rfl, rfl⟩
  · rw [overall, if_pos (Or.inl rfl)]
  · rw [overall, if_pos (Or.inr rfl)]
  · intro h
    rw [overall, if_neg h]

/-- Witness for C10: a leader with zero completed raters still gets a
`by_item` entry for item 1 carrying its framework text. -/
theorem C10_witness :
    ∃ en, by_item [] (fun _ : Category => 0) 1 = some en ∧ en.text = itemText 1 :=
  (C10_structure [] (fun _ : Category => 0) 1).1 (by decide) (by decide)
